import Mathlib

/-!
Verification development for the validator-set sourcing core of a
proof-of-stake consensus engine.  The embedding below translates the
three source modules — the genesis extra-data decoder, the StakeHub
election client with its Top-K selector, and the validator-set
orchestrator — into executable Lean definitions, and proves the
specified properties about them.

Modelling conventions:
* machine bytes are `Nat` values (conceptually `< 256`); `u64`/`U256`
  values are `Nat` with explicit `2 ^ 64` bounds where a narrowing
  conversion can panic;
* an `Address` enters the election algorithm only through its canonical
  textual representation (`to_string` in the source), so a consensus or
  operator address is modelled by that textual representation, a
  `String`;
* Rust panics (integer `to::<u64>` overflow, `try_into().unwrap()` on a
  wrong-width key, remainder by zero) are modelled as `none` of an
  `Option`-valued result;
* fallible decoding returns `Except` with a structured error type whose
  constructors carry the same diagnostic quantities as the source's
  formatted error messages.
-/

/-! ### Comparator infrastructure

The source compares `U256` voting powers with `Ord::cmp` and address
strings with `str::cmp` (byte-wise lexicographic order on UTF-8, which
coincides with code-point-wise lexicographic order). -/

/-- Three-way comparison of natural numbers, the value semantics of
`Ord::cmp` on `U256`/`u64`. -/
def natCmp (a b : Nat) : Ordering :=
  if a < b then .lt else if b < a then .gt else .eq

/-- Three-way comparison of characters by code point, matching Rust's
byte-wise `str` comparison on the (ASCII) address strings involved. -/
def charCmp (a b : Char) : Ordering :=
  natCmp a.toNat b.toNat

/-- Lexicographic three-way comparison of lists, the semantics of Rust's
`cmp` on sequences. -/
def listCmp (f : α → α → Ordering) : List α → List α → Ordering
  | [], [] => .eq
  | [], _ :: _ => .lt
  | _ :: _, [] => .gt
  | a :: as, b :: bs =>
    match f a b with
    | .eq => listCmp f as bs
    | o => o

/-- Lexicographic comparison of strings, the semantics of Rust's
`String::cmp` for the address strings involved. -/
def strCmp (a b : String) : Ordering :=
  listCmp charCmp a.data b.data

theorem natCmp_self (a : Nat) : natCmp a a = .eq := by
  simp [natCmp]

theorem natCmp_swap (a b : Nat) : natCmp b a = (natCmp a b).swap := by
  unfold natCmp
  split_ifs with h1 h2 h3 <;> simp_all [Ordering.swap] <;> omega

theorem natCmp_eq_lt (a b : Nat) : natCmp a b = .lt ↔ a < b := by
  unfold natCmp
  split_ifs <;> simp_all

theorem natCmp_eq_gt (a b : Nat) : natCmp a b = .gt ↔ b < a := by
  unfold natCmp
  split_ifs <;> simp_all <;> omega

theorem natCmp_eq_eq (a b : Nat) : natCmp a b = .eq ↔ a = b := by
  unfold natCmp
  split_ifs <;> simp_all <;> omega

theorem charCmp_swap (a b : Char) : charCmp b a = (charCmp a b).swap :=
  natCmp_swap a.toNat b.toNat

theorem listCmp_swap (f : α → α → Ordering) (hf : ∀ a b, f b a = (f a b).swap) :
    ∀ as bs, listCmp f bs as = (listCmp f as bs).swap := by
  intro as
  induction as with
  | nil =>
    intro bs
    cases bs <;> simp [listCmp, Ordering.swap]
  | cons a as ih =>
    intro bs
    cases bs with
    | nil => simp [listCmp, Ordering.swap]
    | cons b bs =>
      simp only [listCmp]
      rw [hf a b]
      cases h : f a b <;> simp [Ordering.swap, ih bs]

theorem strCmp_swap (a b : String) : strCmp b a = (strCmp a b).swap :=
  listCmp_swap charCmp charCmp_swap a.data b.data

/-- Transitivity of "not lexicographically below" for character lists. -/
theorem listCmp_char_ge_trans :
    ∀ as bs cs : List Char, listCmp charCmp as bs ≠ .lt →
      listCmp charCmp bs cs ≠ .lt → listCmp charCmp as cs ≠ .lt := by
  intro as
  induction as with
  | nil =>
    intro bs cs h1 h2
    cases bs with
    | nil => cases cs with
      | nil => simp [listCmp]
      | cons c cs => exact absurd rfl h2
    | cons b bs => exact absurd rfl h1
  | cons a as ih =>
    intro bs cs h1 h2
    cases bs with
    | nil =>
      cases cs with
      | nil => simp [listCmp]
      | cons c cs => exact absurd rfl h2
    | cons b bs =>
      cases cs with
      | nil => simp [listCmp]
      | cons c cs =>
        simp only [listCmp] at h1 h2 ⊢
        cases hab : charCmp a b with
        | lt => rw [hab] at h1; exact absurd rfl h1
        | eq =>
          have hab' : a.toNat = b.toNat := (natCmp_eq_eq _ _).mp hab
          rw [hab] at h1
          cases hbc : charCmp b c with
          | lt => rw [hbc] at h2; exact absurd rfl h2
          | eq =>
            have hbc' : b.toNat = c.toNat := (natCmp_eq_eq _ _).mp hbc
            have hac : charCmp a c = .eq := by
              exact (natCmp_eq_eq _ _).mpr (hab'.trans hbc')
            rw [hac]
            rw [hbc] at h2
            exact ih bs cs h1 h2
          | gt =>
            have hbc' : c.toNat < b.toNat := (natCmp_eq_gt _ _).mp hbc
            have hac : charCmp a c = .gt := by
              refine (natCmp_eq_gt _ _).mpr ?_
              omega
            rw [hac]
            simp
        | gt =>
          have hab' : b.toNat < a.toNat := (natCmp_eq_gt _ _).mp hab
          cases hbc : charCmp b c with
          | lt => rw [hbc] at h2; exact absurd rfl h2
          | eq =>
            have hbc' : b.toNat = c.toNat := (natCmp_eq_eq _ _).mp hbc
            have hac : charCmp a c = .gt := by
              refine (natCmp_eq_gt _ _).mpr ?_
              omega
            rw [hac]
            simp
          | gt =>
            have hbc' : c.toNat < b.toNat := (natCmp_eq_gt _ _).mp hbc
            have hac : charCmp a c = .gt := by
              refine (natCmp_eq_gt _ _).mpr ?_
              omega
            rw [hac]
            simp

theorem strCmp_ge_trans (a b c : String) (h1 : strCmp a b ≠ .lt)
    (h2 : strCmp b c ≠ .lt) : strCmp a c ≠ .lt :=
  listCmp_char_ge_trans a.data b.data c.data h1 h2

/-! ### StakeHub client data model (`stake_hub_client.rs`) -/

/-- Validator election information from the StakeHub contract
(`ValidatorElectionInfo`).  The two addresses are carried by their
canonical textual representation, the only form the algorithm
consumes. -/
structure ValidatorElectionInfo where
  consensus_address : String
  voting_power : Nat
  operator_address : String
  tendermint_pub_key : List Nat
deriving DecidableEq

/-- Elected validators result (`ElectedValidators`): four parallel
sequences. -/
structure ElectedValidators where
  consensus_addrs : List String
  voting_powers : List Nat
  operator_addrs : List String
  tendermint_pub_keys : List (List Nat)
deriving DecidableEq

/-- The `Ord` implementation on `ValidatorElectionInfo`: primary key is
the raw voting power; on equal powers the result is
`other.consensus_address.to_string().cmp(&self.consensus_address.to_string())`
— note the swapped operands, exactly as in the source. -/
def cmpVEI (a b : ValidatorElectionInfo) : Ordering :=
  match natCmp a.voting_power b.voting_power with
  | .eq => strCmp b.consensus_address a.consensus_address
  | o => o

theorem cmpVEI_swap (a b : ValidatorElectionInfo) :
    cmpVEI b a = (cmpVEI a b).swap := by
  unfold cmpVEI
  rw [natCmp_swap a.voting_power b.voting_power]
  cases h : natCmp a.voting_power b.voting_power with
  | lt => simp [Ordering.swap]
  | gt => simp [Ordering.swap]
  | eq =>
    simp only [Ordering.swap]
    exact strCmp_swap b.consensus_address a.consensus_address

/-- `a` is popped from the max-heap no later than `b`: `a` is not
strictly below `b` in the `Ord` order. -/
def heapGe (a b : ValidatorElectionInfo) : Prop :=
  cmpVEI a b ≠ .lt

instance : DecidableRel heapGe := fun a b =>
  inferInstanceAs (Decidable (cmpVEI a b ≠ .lt))

instance : IsTotal ValidatorElectionInfo heapGe where
  total a b := by
    by_cases h : cmpVEI a b = .lt
    · right
      unfold heapGe
      rw [cmpVEI_swap, h]
      simp [Ordering.swap]
    · left
      exact h

instance : IsTrans ValidatorElectionInfo heapGe where
  trans a b c h1 h2 := by
    unfold heapGe cmpVEI at h1 h2 ⊢
    cases hab : natCmp a.voting_power b.voting_power with
    | lt => rw [hab] at h1; exact absurd rfl h1
    | eq =>
      have hab' := (natCmp_eq_eq _ _).mp hab
      rw [hab] at h1
      cases hbc : natCmp b.voting_power c.voting_power with
      | lt => rw [hbc] at h2; exact absurd rfl h2
      | eq =>
        have hbc' := (natCmp_eq_eq _ _).mp hbc
        have hac : natCmp a.voting_power c.voting_power = .eq :=
          (natCmp_eq_eq _ _).mpr (hab'.trans hbc')
        rw [hac]
        rw [hbc] at h2
        exact strCmp_ge_trans _ _ _ h2 h1
      | gt =>
        have hbc' := (natCmp_eq_gt _ _).mp hbc
        have hac : natCmp a.voting_power c.voting_power = .gt := by
          refine (natCmp_eq_gt _ _).mpr ?_
          omega
        rw [hac]
        simp
    | gt =>
      have hab' := (natCmp_eq_gt _ _).mp hab
      have hbc' : c.voting_power ≤ b.voting_power := by
        by_contra hcb
        have : natCmp b.voting_power c.voting_power = .lt :=
          (natCmp_eq_lt _ _).mpr (by omega)
        rw [this] at h2
        exact absurd rfl h2
      have hac : natCmp a.voting_power c.voting_power = .gt := by
        refine (natCmp_eq_gt _ _).mpr ?_
        omega
      rw [hac]
      simp

/-! ### Top-K selector (`get_top_validators_by_voting_power`, free function) -/

/-- Candidates whose raw voting power is strictly positive: the heap is
only fed validators with `voting_power > U256::ZERO`. -/
def positiveValidators (validators : List ValidatorElectionInfo) :
    List ValidatorElectionInfo :=
  validators.filter (fun v => decide (0 < v.voting_power))

/-- The sequence of heap pops: the positive-power candidates in
descending `Ord` order, truncated to
`min max_elected (heap length)` elements, exactly the source's `top_n`
clamping followed by the pop loop. -/
def topKSelected (validators : List ValidatorElectionInfo)
    (max_elected : Nat) : List ValidatorElectionInfo :=
  let sorted := (positiveValidators validators).insertionSort heapGe
  sorted.take (min max_elected sorted.length)

/-- Narrowing `U256` (here: a `Nat`) to `u64` with ruint's `to::<u64>`,
which panics (modelled as `none`) when the value does not fit. -/
def u256To64 (n : Nat) : Option Nat :=
  if n < 2 ^ 64 then some n else none

/-- The scaled voting powers pushed by the pop loop:
`(voting_power / 10^10).to::<u64>()` for each popped validator, where a
narrowing panic aborts the whole loop. -/
def scaledPowers : List ValidatorElectionInfo → Option (List Nat)
  | [] => some []
  | v :: vs =>
    match u256To64 (v.voting_power / 10 ^ 10) with
    | none => none
    | some p =>
      match scaledPowers vs with
      | none => none
      | some ps => some (p :: ps)

/-- The free function `get_top_validators_by_voting_power`: filter the
zero-power candidates out, heap-select the top
`max_elected.to::<u64>() as usize` (a panic — `none` — when
`max_elected` exceeds `u64`), and emit the four parallel output
sequences, scaling each popped power by `10^10`. -/
def get_top_validators_by_voting_power
    (validators : List ValidatorElectionInfo) (max_elected : Nat) :
    Option ElectedValidators :=
  if 2 ^ 64 ≤ max_elected then none
  else
    match scaledPowers (topKSelected validators max_elected) with
    | none => none
    | some ps =>
      some
        { consensus_addrs :=
            (topKSelected validators max_elected).map
              (fun v => v.consensus_address)
          voting_powers := ps
          operator_addrs :=
            (topKSelected validators max_elected).map
              (fun v => v.operator_address)
          tendermint_pub_keys :=
            (topKSelected validators max_elected).map
              (fun v => v.tendermint_pub_key) }

/-- The marshalling step of `StakeHubClient::get_top_validators_by_voting_power`:
the four decoded sequences are combined with iterator `zip`s (which
truncate to the shortest sequence) into `ValidatorElectionInfo`
records. -/
def combineElectionInfo (consensus_addresses : List String)
    (voting_powers : List Nat) (operator_addresses : List String)
    (tendermint_pub_keys : List (List Nat)) :
    List ValidatorElectionInfo :=
  (((consensus_addresses.zip voting_powers).zip operator_addresses).zip
      tendermint_pub_keys).map
    (fun t =>
      { consensus_address := t.1.1.1
        voting_power := t.1.1.2
        operator_address := t.1.2
        tendermint_pub_key := t.2 })

/-- `StakeHubClient::get_top_validators_by_voting_power` after both
contract fetches succeeded and decoded into the four parallel sequences
(plus an unused reported total): combine and run the selection. -/
def stakeHubGetTopValidators (max_elected : Nat)
    (consensus_addresses : List String) (voting_powers : List Nat)
    (operator_addresses : List String)
    (tendermint_pub_keys : List (List Nat)) : Option ElectedValidators :=
  get_top_validators_by_voting_power
    (combineElectionInfo consensus_addresses voting_powers
      operator_addresses tendermint_pub_keys)
    max_elected

/-! ### Validator set orchestrator (`validator_executor.rs`) -/

/-- Canonical validator for the consensus engine
(`malachitebft_eth_types::Validator`). -/
structure Validator where
  consensus_address : String
  operator_address : String
  public_key : List Nat
  voting_power : Nat
deriving DecidableEq

/-- Canonical validator set (`malachitebft_eth_types::ValidatorSet`). -/
structure ValidatorSet where
  validators : List Validator
deriving DecidableEq

/-- `ValidatorExecutor::is_epoch_boundary`:
`block_number > 0 && block_number % epoch_length == 0`.  The `&&`
short-circuits, so the remainder is only evaluated when
`block_number > 0`; remainder by `0` is a Rust panic, modelled as
`none`. -/
def is_epoch_boundary (block_number epoch_length : Nat) : Option Bool :=
  if 0 < block_number then
    if epoch_length = 0 then none
    else some (decide (block_number % epoch_length = 0))
  else some false

/-- The `tendermint_pub_key.try_into()` conversion of a byte vector into
the fixed-width 32-byte array expected by `PublicKey::from_bytes`:
succeeds exactly when the vector has length 32. -/
def publicKeyFromBytes32 (bs : List Nat) : Option (List Nat) :=
  if bs.length = 32 then some bs else none

/-- The zip chain of
`ValidatorExecutor::get_validator_set_from_stake_hub` combining the four
elected sequences into per-validator tuples
`(((consensus, power), operator), pub_key)`. -/
def electionTuples (ev : ElectedValidators) :
    List (((String × Nat) × String) × List Nat) :=
  ((ev.consensus_addrs.zip ev.voting_powers).zip ev.operator_addrs).zip
    ev.tendermint_pub_keys

/-- The assembly loop mapping each elected tuple into a canonical
`Validator`.  The source unwraps the `try_into()` result, so a
wrong-width public key panics (modelled as `none`) and aborts the whole
assembly. -/
def assembleValidators :
    List (((String × Nat) × String) × List Nat) → Option (List Validator)
  | [] => some []
  | t :: ts =>
    match publicKeyFromBytes32 t.2 with
    | none => none
    | some pk =>
      match assembleValidators ts with
      | none => none
      | some vs =>
        some
          ({ consensus_address := t.1.1.1
             operator_address := t.1.2
             public_key := pk
             voting_power := t.1.1.2 } :: vs)

/-- `ValidatorExecutor::get_validator_set_from_stake_hub`, as a function
of the outcome of the StakeHub fetch chain.  An `Err` from the chain is
logged and downgraded to `Ok(None)` (`some none`); an `Ok` list is
assembled into a canonical set, where a wrong-width public key panics
(the outer `none`). -/
def get_validator_set_from_stake_hub
    (fetched : Except String ElectedValidators) :
    Option (Option ValidatorSet) :=
  match fetched with
  | .error _ => some none
  | .ok ev =>
    match assembleValidators (electionTuples ev) with
    | none => none
    | some vs => some (some ⟨vs⟩)

/-! ### Genesis extra-data decoder (`genesis.rs`) -/

def EXTRA_VANITY_LEN : Nat := 32

def EXTRA_SEAL_LEN : Nat := 65

/-- Validator information from genesis extraData
(`GenesisValidatorInfo`). -/
structure GenesisValidatorInfo where
  consensus_address : List Nat
  operator_address : List Nat
  tendermint_pubkey : List Nat
  voting_power : Nat
deriving DecidableEq

/-- The three format errors of the genesis decoder, carrying the same
diagnostic quantities as the formatted `eyre!` messages in the
source. -/
inductive ExtraDataError where
  | tooShort (got expected : Nat)
  | middleTooShort (middleLen : Nat)
  | invalidValidatorDataLen (validatorDataLen : Nat)
deriving DecidableEq

/-- Contiguous byte byteSlice `l[start..stop]`, as produced by Rust range
indexing of a byte byteSlice. -/
def byteSlice (l : List Nat) (start stop : Nat) : List Nat :=
  (l.drop start).take (stop - start)

/-- `u64::from_be_bytes` on eight explicitly indexed bytes. -/
def u64_from_be_bytes (b0 b1 b2 b3 b4 b5 b6 b7 : Nat) : Nat :=
  ((((((b0 * 256 + b1) * 256 + b2) * 256 + b3) * 256 + b4) * 256 + b5)
      * 256 + b6) * 256 + b7

/-- `u64::from_be_bytes` applied to the eight bytes of a byteSlice, indexed
`s[0]` through `s[7]` exactly as in the source (the slices so indexed
always have length 8, so the default value of `getD` is never
reached). -/
def u64FromBeSlice (s : List Nat) : Nat :=
  u64_from_be_bytes (s.getD 0 0) (s.getD 1 0) (s.getD 2 0) (s.getD 3 0)
    (s.getD 4 0) (s.getD 5 0) (s.getD 6 0) (s.getD 7 0)

/-- Big-endian value of a byte list (the specification's "8-byte
big-endian value", stated positionally). -/
def beNat : List Nat → Nat
  | [] => 0
  | b :: bs => b * 256 ^ bs.length + beNat bs

/-- Decoding of validator record `i` of the extra data, occupying bytes
`[32 + 80·i, 32 + 80·i + 80)`: 20-byte consensus address, 20-byte
operator address, 8-byte big-endian voting power, 32-byte public
key. -/
def decodeValidatorAt (extra_data : List Nat) (i : Nat) :
    GenesisValidatorInfo :=
  let validator_start := EXTRA_VANITY_LEN + i * 80
  { consensus_address := byteSlice extra_data validator_start (validator_start + 20)
    operator_address :=
      byteSlice extra_data (validator_start + 20) (validator_start + 40)
    tendermint_pubkey :=
      byteSlice extra_data (validator_start + 48) (validator_start + 80)
    voting_power :=
      u64FromBeSlice
        (byteSlice extra_data (validator_start + 40) (validator_start + 48)) }

/-- `parse_validators_from_extra_data`: validate the three length
conditions in source order, then decode `validator_count` records and
the big-endian epoch length (the 8 bytes immediately before the 65-byte
seal).  In the source the epoch length is extracted before the
multiple-of-80 check; both computations are pure, so the order is
unobservable. -/
def parse_validators_from_extra_data (extra_data : List Nat) :
    Except ExtraDataError (List GenesisValidatorInfo × Nat) :=
  if extra_data.length < EXTRA_VANITY_LEN + EXTRA_SEAL_LEN then
    .error (.tooShort extra_data.length (EXTRA_VANITY_LEN + EXTRA_SEAL_LEN))
  else if extra_data.length - EXTRA_VANITY_LEN - EXTRA_SEAL_LEN < 8 then
    .error
      (.middleTooShort (extra_data.length - EXTRA_VANITY_LEN - EXTRA_SEAL_LEN))
  else if (extra_data.length - EXTRA_VANITY_LEN - EXTRA_SEAL_LEN - 8) % 80 ≠ 0
  then
    .error
      (.invalidValidatorDataLen
        (extra_data.length - EXTRA_VANITY_LEN - EXTRA_SEAL_LEN - 8))
  else
    .ok
      ((List.range
            ((extra_data.length - EXTRA_VANITY_LEN - EXTRA_SEAL_LEN - 8) / 80))
          |>.map (decodeValidatorAt extra_data),
        u64FromBeSlice
          (byteSlice extra_data (extra_data.length - EXTRA_SEAL_LEN - 8)
            (extra_data.length - EXTRA_SEAL_LEN)))

/-- Decoding of one 80-byte record, stated on the record's own bytes as
the specification words it: 20-byte consensus identity, then 20-byte
operator identity, then 8-byte big-endian voting power, then 32-byte
public key. -/
def specDecodeRecord (c : List Nat) : GenesisValidatorInfo :=
  { consensus_address := c.take 20
    operator_address := (c.drop 20).take 20
    tendermint_pubkey := (c.drop 48).take 32
    voting_power := beNat ((c.drop 40).take 8) }

/-! ### Helper lemmas -/

theorem u256To64_some {n p : Nat} (h : u256To64 n = some p) : p = n := by
  unfold u256To64 at h
  split at h
  · exact (Option.some.inj h).symm
  · cases h

theorem scaledPowers_eq :
    ∀ (l : List ValidatorElectionInfo) (ps : List Nat),
      scaledPowers l = some ps →
      ps = l.map (fun v => v.voting_power / 10 ^ 10) := by
  intro l
  induction l with
  | nil =>
    intro ps h
    simp only [scaledPowers] at h
    injection h with h2
    simp [← h2]
  | cons v vs ih =>
    intro ps h
    simp only [scaledPowers] at h
    cases hu : u256To64 (v.voting_power / 10 ^ 10) with
    | none => rw [hu] at h; cases h
    | some p =>
      rw [hu] at h
      cases hs : scaledPowers vs with
      | none => rw [hs] at h; cases h
      | some ps' =>
        rw [hs] at h
        injection h with h2
        simp [← h2, u256To64_some hu, ih ps' hs]

theorem get_top_inv {validators : List ValidatorElectionInfo}
    {max_elected : Nat} {out : ElectedValidators}
    (h : get_top_validators_by_voting_power validators max_elected = some out) :
    max_elected < 2 ^ 64 ∧
    scaledPowers (topKSelected validators max_elected) = some out.voting_powers ∧
    out.consensus_addrs =
      (topKSelected validators max_elected).map (fun v => v.consensus_address) ∧
    out.operator_addrs =
      (topKSelected validators max_elected).map (fun v => v.operator_address) ∧
    out.tendermint_pub_keys =
      (topKSelected validators max_elected).map (fun v => v.tendermint_pub_key)
    := by
  unfold get_top_validators_by_voting_power at h
  by_cases h64 : 2 ^ 64 ≤ max_elected
  · rw [if_pos h64] at h; cases h
  · rw [if_neg h64] at h
    cases hs : scaledPowers (topKSelected validators max_elected) with
    | none => rw [hs] at h; cases h
    | some ps =>
      rw [hs] at h
      have hout := Option.some.inj h
      subst hout
      exact ⟨by omega, rfl, rfl, rfl, rfl⟩

theorem topKSelected_length (validators : List ValidatorElectionInfo)
    (max_elected : Nat) :
    (topKSelected validators max_elected).length =
      min max_elected (positiveValidators validators).length := by
  unfold topKSelected
  simp only [List.length_take, List.length_insertionSort]
  omega

theorem assembleValidators_eq_none
    (l : List (((String × Nat) × String) × List Nat))
    (h : ∃ t ∈ l, t.2.length ≠ 32) : assembleValidators l = none := by
  induction l with
  | nil => simp at h
  | cons t ts ih =>
    obtain ⟨u, hu, hlen⟩ := h
    rcases List.mem_cons.mp hu with rfl | hmem
    · simp only [assembleValidators]
      unfold publicKeyFromBytes32
      rw [if_neg hlen]
    · simp only [assembleValidators]
      cases hpk : publicKeyFromBytes32 t.2 with
      | none => rfl
      | some pk => rw [ih ⟨u, hmem, hlen⟩]

theorem assembleValidators_eq_some
    (l : List (((String × Nat) × String) × List Nat))
    (h : ∀ t ∈ l, t.2.length = 32) :
    ∃ vs, assembleValidators l = some vs ∧ vs.length = l.length := by
  induction l with
  | nil => exact ⟨[], rfl, rfl⟩
  | cons t ts ih =>
    have ht : t.2.length = 32 := h t (List.mem_cons_self t ts)
    obtain ⟨vs, hvs, hlenvs⟩ :=
      ih (fun u hu => h u (List.mem_cons_of_mem t hu))
    refine
      ⟨{ consensus_address := t.1.1.1
         operator_address := t.1.2
         public_key := t.2
         voting_power := t.1.1.2 } :: vs, ?_, ?_⟩
    · simp only [assembleValidators]
      unfold publicKeyFromBytes32
      rw [if_pos ht, hvs]
    · simp [hlenvs]

/-! ### Epoch boundary (claims C9 and C10) -/

/-- C9: the epoch-boundary test returns `true` exactly when the block
number is strictly positive and exactly divisible by the epoch length
(divisibility by zero meaning equality to zero, as in `Nat.mod`), and in
particular it returns `false` for block number 0 under every epoch
length — the short-circuiting `&&` never evaluates the remainder
there. -/
theorem epoch_boundary_iff (block_number epoch_length : Nat) :
    (is_epoch_boundary block_number epoch_length = some true ↔
      0 < block_number ∧ block_number % epoch_length = 0) ∧
    is_epoch_boundary 0 epoch_length = some false := by
  constructor
  · unfold is_epoch_boundary
    by_cases hb : 0 < block_number
    · rw [if_pos hb]
      by_cases he : epoch_length = 0
      · subst he
        rw [if_pos rfl]
        simp [Nat.mod_zero]
        omega
      · rw [if_neg he]
        simp [hb]
    · rw [if_neg hb]
      simp
      omega
  · simp [is_epoch_boundary]

/-- C9 witness: block 10 with epoch length 5 is a boundary, and block 0
is not, even under epoch length 0. -/
theorem epoch_boundary_iff_witness :
    is_epoch_boundary 10 5 = some true ∧ is_epoch_boundary 0 0 = some false :=
  ⟨(epoch_boundary_iff 10 5).1.mpr (by decide), (epoch_boundary_iff 0 0).2⟩

/-- C10: for every positive block number, the epoch-boundary test with
epoch length 0 reaches the unguarded remainder by zero (a panic,
modelled as `none`); with any strictly positive epoch length it is total
(never panics). -/
theorem epoch_boundary_zero_epoch_panics (block_number epoch_length : Nat) :
    (0 < block_number → is_epoch_boundary block_number 0 = none) ∧
    (0 < epoch_length → is_epoch_boundary block_number epoch_length ≠ none)
    := by
  constructor
  · intro hb
    unfold is_epoch_boundary
    rw [if_pos hb, if_pos rfl]
  · intro he
    unfold is_epoch_boundary
    by_cases hb : 0 < block_number
    · rw [if_pos hb, if_neg (by omega)]
      simp
    · rw [if_neg hb]
      simp

/-- C10 witness: block 3 with epoch length 0 panics; block 3 with epoch
length 2 does not. -/
theorem epoch_boundary_zero_epoch_panics_witness :
    is_epoch_boundary 3 0 = none ∧ is_epoch_boundary 3 2 ≠ none :=
  ⟨(epoch_boundary_zero_epoch_panics 3 0).1 (by decide),
    (epoch_boundary_zero_epoch_panics 3 2).2 (by decide)⟩

/-! ### Orchestrator failure handling (claim C2) -/

/-- C2 counterexample: a successfully fetched election result whose only
candidate carries a 1-byte public key (expected width 32) makes
`get_validator_set_from_stake_hub` panic on `try_into().unwrap()`
(modelled `none`) — it does not produce the claimed "no new set"
outcome `Ok(None)` (`some none`). -/
theorem pubkey_width_panic_refutes_ok_none :
    get_validator_set_from_stake_hub
        (Except.ok ⟨[("0xcc")], [5], [("0xdd")], [[1]]⟩) = none ∧
    get_validator_set_from_stake_hub
        (Except.ok ⟨[("0xcc")], [5], [("0xdd")], [[1]]⟩) ≠ some none := by
  constructor
  · rfl
  · decide

/-- C2 (amended): an `Err` from the fetch chain (contract-call failure
or decode error) is downgraded to `Ok(None)`; but a candidate whose
public-key bytes are not exactly 32 wide makes the operation panic
(`none`), aborting assembly of the whole set, rather than yielding
`Ok(None)`; when every key has width 32 a full (never partial) set is
returned. -/
theorem orchestrator_failure_handling (msg : String)
    (ev : ElectedValidators) :
    get_validator_set_from_stake_hub (.error msg) = some none ∧
    ((∃ t ∈ electionTuples ev, t.2.length ≠ 32) →
      get_validator_set_from_stake_hub (.ok ev) = none) ∧
    ((∀ t ∈ electionTuples ev, t.2.length = 32) →
      ∃ vs, get_validator_set_from_stake_hub (.ok ev) = some (some vs) ∧
        vs.validators.length = (electionTuples ev).length) := by
  refine ⟨rfl, ?_, ?_⟩
  · intro hbad
    have hnone := assembleValidators_eq_none _ hbad
    simp [get_validator_set_from_stake_hub, hnone]
  · intro hgood
    obtain ⟨vs, hvs, hlen⟩ := assembleValidators_eq_some _ hgood
    refine ⟨⟨vs⟩, ?_, hlen⟩
    simp [get_validator_set_from_stake_hub, hvs]

/-- C2 witness: a one-candidate election result with a 32-byte key
assembles into a one-validator set, and an `Err` outcome maps to
`Ok(None)`. -/
theorem orchestrator_failure_handling_witness :
    get_validator_set_from_stake_hub
        (.error (("rpc unavailable" : String))) = some none ∧
    (∃ vs,
      get_validator_set_from_stake_hub
          (.ok ⟨[("0xaa")], [7], [("0xbb")], [List.replicate 32 1]⟩) =
        some (some vs) ∧
      vs.validators.length =
        (electionTuples
            ⟨[("0xaa")], [7], [("0xbb")], [List.replicate 32 1]⟩).length) :=
  ⟨(orchestrator_failure_handling (("rpc unavailable" : String))
      ⟨[("0xaa")], [7], [("0xbb")], [List.replicate 32 1]⟩).1,
    (orchestrator_failure_handling (("rpc unavailable" : String))
        ⟨[("0xaa")], [7], [("0xbb")], [List.replicate 32 1]⟩).2.2
      (by decide)⟩

/-! ### Silent truncation of unequal sequences (claim C3) -/

/-- C3 counterexample: four decoded sequences of unequal lengths (2, 1,
2, 2) flow through the election computation with no decode failure at
all — the zip chain silently truncates to the single complete tuple and
the selection succeeds. -/
theorem unequal_lengths_silently_truncated :
    stakeHubGetTopValidators 10 [("0xaa"), ("0xbb")] [20000000000]
        [("0xcc"), ("0xdd")] [[1], [2]] =
      some ⟨[("0xaa")], [2], [("0xcc")], [[1]]⟩ ∧
    ([("0xaa"), ("0xbb")] : List String).length ≠
      ([20000000000] : List Nat).length := by
  constructor
  · decide
  · decide

/-- C3 (amended): the election computation performs no equal-length
check: the four decoded sequences are combined with truncating `zip`s,
so the candidate list has the length of the shortest sequence and no
decode failure is ever surfaced for a mismatch. -/
theorem combine_truncates_to_min_length (consensus_addresses : List String)
    (voting_powers : List Nat) (operator_addresses : List String)
    (tendermint_pub_keys : List (List Nat)) :
    (combineElectionInfo consensus_addresses voting_powers
        operator_addresses tendermint_pub_keys).length =
      min
        (min (min consensus_addresses.length voting_powers.length)
          operator_addresses.length)
        tendermint_pub_keys.length := by
  unfold combineElectionInfo
  simp [List.length_zip]

/-! ### Genesis decoding helper lemmas -/

theorem flatten_length80 (cs : List (List Nat))
    (hc : ∀ c ∈ cs, c.length = 80) : cs.flatten.length = 80 * cs.length := by
  induction cs with
  | nil => simp
  | cons c t ih =>
    have hct : c.length = 80 := hc c (List.mem_cons_self c t)
    have hit := ih (fun u hu => hc u (List.mem_cons_of_mem c hu))
    simp [List.flatten_cons, hct, hit]
    ring

theorem flatten_chunk (cs : List (List Nat)) (rest : List Nat) :
    ∀ i, (∀ c ∈ cs, c.length = 80) → i < cs.length →
      ((cs.flatten ++ rest).drop (80 * i)).take 80 = cs.getD i [] := by
  induction cs with
  | nil =>
    intro i _ hi
    simp at hi
  | cons c t ih =>
    intro i hc hi
    have hct : c.length = 80 := hc c (List.mem_cons_self c t)
    cases i with
    | zero =>
      rw [List.flatten_cons, List.append_assoc]
      simp only [Nat.mul_zero, List.drop_zero, List.getD_cons_zero]
      exact List.take_left' hct
    | succ j =>
      rw [List.flatten_cons, List.append_assoc]
      have hsplit : 80 * (j + 1) = c.length + 80 * j := by omega
      rw [hsplit, List.drop_append, List.getD_cons_succ]
      exact
        ih j (fun u hu => hc u (List.mem_cons_of_mem c hu))
          (by simpa using hi)

theorem chunk_at (lead : List Nat) (cs : List (List Nat)) (rest : List Nat)
    (i : Nat) (hl : lead.length = 32) (hc : ∀ c ∈ cs, c.length = 80)
    (hi : i < cs.length) :
    ((lead ++ cs.flatten ++ rest).drop (32 + i * 80)).take 80 =
      cs.getD i [] := by
  have h1 : 32 + i * 80 = lead.length + 80 * i := by omega
  rw [List.append_assoc, h1, List.drop_append]
  exact flatten_chunk cs rest i hc hi

theorem be8 (s : List Nat) (hs : s.length = 8) : u64FromBeSlice s = beNat s := by
  rcases s with _ | ⟨b0, s⟩
  · simp at hs
  rcases s with _ | ⟨b1, s⟩
  · simp at hs
  rcases s with _ | ⟨b2, s⟩
  · simp at hs
  rcases s with _ | ⟨b3, s⟩
  · simp at hs
  rcases s with _ | ⟨b4, s⟩
  · simp at hs
  rcases s with _ | ⟨b5, s⟩
  · simp at hs
  rcases s with _ | ⟨b6, s⟩
  · simp at hs
  rcases s with _ | ⟨b7, s⟩
  · simp at hs
  have hnil : s = [] := by simpa using hs
  subst hnil
  simp only [u64FromBeSlice, u64_from_be_bytes, beNat, List.getD_cons_zero,
    List.getD_cons_succ, List.length_cons, List.length_nil]
  norm_num
  omega

theorem decodeValidatorAt_eq_spec (extra : List Nat) (i : Nat)
    (hd : 80 ≤ (extra.drop (32 + i * 80)).length) :
    decodeValidatorAt extra i =
      specDecodeRecord ((extra.drop (32 + i * 80)).take 80) := by
  have hdrop20 :
      extra.drop (32 + i * 80 + 20) = (extra.drop (32 + i * 80)).drop 20 := by
    rw [List.drop_drop]
  have hdrop40 :
      extra.drop (32 + i * 80 + 40) = (extra.drop (32 + i * 80)).drop 40 := by
    rw [List.drop_drop]
  have hdrop48 :
      extra.drop (32 + i * 80 + 48) = (extra.drop (32 + i * 80)).drop 48 := by
    rw [List.drop_drop]
  unfold decodeValidatorAt specDecodeRecord byteSlice EXTRA_VANITY_LEN
  dsimp only
  congr 1
  · rw [Nat.add_sub_cancel_left, List.take_take]
    norm_num
  · have h20 : 32 + i * 80 + 40 - (32 + i * 80 + 20) = 20 := by omega
    rw [h20, hdrop20, List.drop_take, List.take_take]
    norm_num
  · have h32 : 32 + i * 80 + 80 - (32 + i * 80 + 48) = 32 := by omega
    rw [h32, hdrop48, List.drop_take, List.take_take]
    norm_num
  · have h8 : 32 + i * 80 + 48 - (32 + i * 80 + 40) = 8 := by omega
    rw [h8, hdrop40, List.drop_take]
    have hd' : 80 ≤ extra.length - (32 + i * 80) := by
      simpa [List.length_drop] using hd
    have hlen8 : (((extra.drop (32 + i * 80)).drop 40).take 8).length = 8 := by
      simp only [List.length_take, List.length_drop]
      omega
    have htake :
        ((extra.drop (32 + i * 80)).drop 40).take 8 =
          ((((extra.drop (32 + i * 80)).drop 40).take (80 - 40)).take 8) := by
      rw [List.take_take]
      norm_num
    rw [← htake]
    exact be8 _ hlen8

/-! ### Genesis decoding of well-formed extra data (claim C4) -/

/-- C4: for every byte sequence built as a 32-byte leading region, `N`
records of exactly 80 bytes, an 8-byte big-endian epoch length and a
65-byte trailing region, the decoder succeeds and returns exactly the
`N` records in input order — each decoded as 20-byte consensus identity,
20-byte operator identity, 8-byte big-endian voting power and 32-byte
public key — together with the big-endian value of the 8 bytes preceding
the trailing region. -/
theorem genesis_decode_valid_layout (lead : List Nat)
    (chunks : List (List Nat)) (ep trail : List Nat)
    (hl : lead.length = 32) (hc : ∀ c ∈ chunks, c.length = 80)
    (he : ep.length = 8) (ht : trail.length = 65) :
    parse_validators_from_extra_data (lead ++ chunks.flatten ++ ep ++ trail) =
      Except.ok (chunks.map specDecodeRecord, beNat ep) := by
  have hflat := flatten_length80 chunks hc
  have hlen :
      (lead ++ chunks.flatten ++ ep ++ trail).length =
        105 + 80 * chunks.length := by
    simp [List.length_append, hl, he, ht, hflat]
    omega
  unfold parse_validators_from_extra_data EXTRA_VANITY_LEN EXTRA_SEAL_LEN
  rw [if_neg (by omega), if_neg (by omega), if_neg (by omega)]
  have hdiv :
      ((lead ++ chunks.flatten ++ ep ++ trail).length - 32 - 65 - 8) / 80 =
        chunks.length := by omega
  rw [hdiv]
  have hrec :
      (List.range chunks.length).map
          (decodeValidatorAt (lead ++ chunks.flatten ++ ep ++ trail)) =
        chunks.map specDecodeRecord := by
    refine List.ext_getElem (by simp) ?_
    intro i h₁ h₂
    rw [List.getElem_map, List.getElem_map, List.getElem_range]
    have hi : i < chunks.length := by simpa using h₂
    have hd :
        80 ≤ ((lead ++ chunks.flatten ++ ep ++ trail).drop (32 + i * 80)).length
        := by
      rw [List.length_drop, hlen]
      omega
    rw [decodeValidatorAt_eq_spec _ _ hd,
      List.append_assoc (lead ++ chunks.flatten) ep trail,
      chunk_at lead chunks (ep ++ trail) i hl hc hi,
      List.getD_eq_getElem chunks [] hi]
  have hep :
      u64FromBeSlice
          (byteSlice (lead ++ chunks.flatten ++ ep ++ trail)
            ((lead ++ chunks.flatten ++ ep ++ trail).length - 65 - 8)
            ((lead ++ chunks.flatten ++ ep ++ trail).length - 65)) =
        beNat ep := by
    unfold byteSlice
    have h8 :
        (lead ++ chunks.flatten ++ ep ++ trail).length - 65 -
            ((lead ++ chunks.flatten ++ ep ++ trail).length - 65 - 8) = 8 := by
      omega
    have hstart :
        (lead ++ chunks.flatten ++ ep ++ trail).length - 65 - 8 =
          (lead ++ chunks.flatten).length := by
      simp only [List.length_append]
      omega
    rw [h8, hstart, List.append_assoc (lead ++ chunks.flatten) ep trail,
      List.drop_left (lead ++ chunks.flatten) (ep ++ trail),
      List.take_left' he]
    exact be8 ep he
  rw [hrec, hep]

/-- C4 witness: a concrete one-record extra-data blob decodes to the one
record and epoch length 256. -/
theorem genesis_decode_valid_layout_witness :
    parse_validators_from_extra_data
        (List.replicate 32 0 ++
          (List.replicate 20 1 ++ List.replicate 20 2 ++
            [0, 0, 0, 0, 0, 0, 0, 5] ++ List.replicate 32 3 :
            List Nat) ++
          ([0, 0, 0, 0, 0, 0, 1, 0] : List Nat) ++ List.replicate 65 0) =
      Except.ok
        ([specDecodeRecord
            (List.replicate 20 1 ++ List.replicate 20 2 ++
              [0, 0, 0, 0, 0, 0, 0, 5] ++ List.replicate 32 3)],
          beNat [0, 0, 0, 0, 0, 0, 1, 0]) ∧
    specDecodeRecord
        (List.replicate 20 1 ++ List.replicate 20 2 ++
          [0, 0, 0, 0, 0, 0, 0, 5] ++ List.replicate 32 3) =
      ⟨List.replicate 20 1, List.replicate 20 2, List.replicate 32 3, 5⟩ ∧
    beNat [0, 0, 0, 0, 0, 0, 1, 0] = 256 := by
  refine ⟨?_, by decide, by decide⟩
  have hjoin :
      (List.replicate 20 1 ++ List.replicate 20 2 ++
          [0, 0, 0, 0, 0, 0, 0, 5] ++ List.replicate 32 3 : List Nat) =
        ([List.replicate 20 1 ++ List.replicate 20 2 ++
            [0, 0, 0, 0, 0, 0, 0, 5] ++ List.replicate 32 3] :
          List (List Nat)).flatten := by
    simp
  rw [hjoin]
  exact
    genesis_decode_valid_layout (List.replicate 32 0) _ _ (List.replicate 65 0)
      (by decide) (by decide) (by decide) (by decide)

/-! ### Genesis decoding error cases (claim C5) -/

/-- C5: the decoder fails with the three format errors exactly in the
specified order of checks — total length below 97, then middle region
(total minus 97) below 8, then record region (total minus 105) not a
multiple of 80 — and succeeds on every input passing all three
checks. -/
theorem genesis_decode_error_cases (bs : List Nat) :
    (bs.length < 97 →
      parse_validators_from_extra_data bs =
        .error (.tooShort bs.length 97)) ∧
    (97 ≤ bs.length → bs.length - 97 < 8 →
      parse_validators_from_extra_data bs =
        .error (.middleTooShort (bs.length - 97))) ∧
    (105 ≤ bs.length → (bs.length - 105) % 80 ≠ 0 →
      parse_validators_from_extra_data bs =
        .error (.invalidValidatorDataLen (bs.length - 105))) ∧
    (105 ≤ bs.length → (bs.length - 105) % 80 = 0 →
      (parse_validators_from_extra_data bs).isOk = true) := by
  unfold parse_validators_from_extra_data EXTRA_VANITY_LEN EXTRA_SEAL_LEN
  refine ⟨?_, ?_, ?_, ?_⟩
  · intro h1
    rw [if_pos (by omega)]
  · intro h1 h2
    rw [if_neg (by omega), if_pos (by omega)]
    have : bs.length - 32 - 65 = bs.length - 97 := by omega
    rw [this]
  · intro h1 h2
    rw [if_neg (by omega), if_neg (by omega), if_pos (by omega)]
    have : bs.length - 32 - 65 - 8 = bs.length - 105 := by omega
    rw [this]
  · intro h1 h2
    rw [if_neg (by omega), if_neg (by omega), if_neg (by omega)]
    rfl

/-- C5 witness: length 96 is too short; length 100 has a too-short
middle region; length 117 has a 12-byte record region (not a multiple of
80); length 105 decodes successfully. -/
theorem genesis_decode_error_cases_witness :
    parse_validators_from_extra_data (List.replicate 96 0) =
      .error (.tooShort 96 97) ∧
    parse_validators_from_extra_data (List.replicate 100 0) =
      .error (.middleTooShort 3) ∧
    parse_validators_from_extra_data (List.replicate 117 0) =
      .error (.invalidValidatorDataLen 12) ∧
    (parse_validators_from_extra_data (List.replicate 105 0)).isOk = true :=
  ⟨by
      have h := (genesis_decode_error_cases (List.replicate 96 0)).1
      simpa using h (by simp),
    by
      have h := (genesis_decode_error_cases (List.replicate 100 0)).2.1
      simpa using h (by simp) (by simp),
    by
      have h := (genesis_decode_error_cases (List.replicate 117 0)).2.2.1
      simpa using h (by simp) (by simp),
    by
      have h := (genesis_decode_error_cases (List.replicate 105 0)).2.2.2
      simpa using h (by simp) (by simp)⟩

/-! ### Tie-break direction (claim C1) -/

/-- C1 counterexample: two candidates with equal raw voting power 77 and
distinct textual addresses; the selection extracts the lexicographically
*smaller* address first, refuting the claimed descending order.  (The
`Ord` implementation compares the strings with swapped operands, which
inverts the tie-break under the max-heap.) -/
theorem tiebreak_descending_refuted :
    topKSelected
        [⟨"0x3333333333333333333333333333333333333333", 77,
            "0x1000000000000000000000000000000000000001", [1]⟩,
          ⟨"0x4444444444444444444444444444444444444444", 77,
            "0x1000000000000000000000000000000000000002", [2]⟩] 2 =
      [⟨"0x3333333333333333333333333333333333333333", 77,
          "0x1000000000000000000000000000000000000001", [1]⟩,
        ⟨"0x4444444444444444444444444444444444444444", 77,
          "0x1000000000000000000000000000000000000002", [2]⟩] ∧
    strCmp ("0x3333333333333333333333333333333333333333")
        ("0x4444444444444444444444444444444444444444") = .lt ∧
    ("0x3333333333333333333333333333333333333333" : String) ≠
      "0x4444444444444444444444444444444444444444" := by
  refine ⟨by decide, by decide, by decide⟩

/-- C1 (amended): among equal-power candidates with distinct addresses,
the one whose canonical textual representation is lexicographically
*smaller* is extracted first — ascending textual order, regardless of
the candidates' input order. -/
theorem tiebreak_ascending_on_equal_power (a b : ValidatorElectionInfo)
    (hp : a.voting_power = b.voting_power) (hpos : 0 < a.voting_power)
    (hs : strCmp a.consensus_address b.consensus_address = .lt)
    (max_elected : Nat) (hm : 2 ≤ max_elected) :
    topKSelected [a, b] max_elected = [a, b] ∧
    topKSelected [b, a] max_elected = [a, b] := by
  have hpb : 0 < b.voting_power := hp ▸ hpos
  have hcab : cmpVEI a b = .gt := by
    unfold cmpVEI
    rw [hp, natCmp_self, strCmp_swap, hs]
    rfl
  have hcba : cmpVEI b a = .lt := by
    rw [cmpVEI_swap, hcab]
    rfl
  have hga : heapGe a b := by
    unfold heapGe
    rw [hcab]
    simp
  have hnb : ¬ heapGe b a := by
    unfold heapGe
    rw [hcba]
    simp
  have hfil1 : positiveValidators [a, b] = [a, b] := by
    simp [positiveValidators, List.filter, hpos, hpb]
  have hfil2 : positiveValidators [b, a] = [b, a] := by
    simp [positiveValidators, List.filter, hpos, hpb]
  have hsort1 : (positiveValidators [a, b]).insertionSort heapGe = [a, b] := by
    rw [hfil1]
    simp [List.insertionSort, List.orderedInsert, hga]
  have hsort2 : (positiveValidators [b, a]).insertionSort heapGe = [a, b] := by
    rw [hfil2]
    simp [List.insertionSort, List.orderedInsert, hnb]
  have hmin : min max_elected 2 = 2 := by omega
  constructor
  · simp only [topKSelected]
    rw [hsort1]
    simp [hmin]
  · simp only [topKSelected]
    rw [hsort2]
    simp [hmin]

/-- C1 witness: concrete equal-power candidates in both input orders,
applied to the amended tie-break theorem. -/
theorem tiebreak_ascending_on_equal_power_witness :
    topKSelected
        [⟨"0x1111111111111111111111111111111111111111", 10000000000,
            "0x2000000000000000000000000000000000000001", [3]⟩,
          ⟨"0x2222222222222222222222222222222222222222", 10000000000,
            "0x2000000000000000000000000000000000000002", [4]⟩] 2 =
      [⟨"0x1111111111111111111111111111111111111111", 10000000000,
          "0x2000000000000000000000000000000000000001", [3]⟩,
        ⟨"0x2222222222222222222222222222222222222222", 10000000000,
          "0x2000000000000000000000000000000000000002", [4]⟩] ∧
    topKSelected
        [⟨"0x2222222222222222222222222222222222222222", 10000000000,
            "0x2000000000000000000000000000000000000002", [4]⟩,
          ⟨"0x1111111111111111111111111111111111111111", 10000000000,
            "0x2000000000000000000000000000000000000001", [3]⟩] 2 =
      [⟨"0x1111111111111111111111111111111111111111", 10000000000,
          "0x2000000000000000000000000000000000000001", [3]⟩,
        ⟨"0x2222222222222222222222222222222222222222", 10000000000,
          "0x2000000000000000000000000000000000000002", [4]⟩] :=
  tiebreak_ascending_on_equal_power
    ⟨"0x1111111111111111111111111111111111111111", 10000000000,
      "0x2000000000000000000000000000000000000001", [3]⟩
    ⟨"0x2222222222222222222222222222222222222222", 10000000000,
      "0x2000000000000000000000000000000000000002", [4]⟩
    rfl (by decide) (by decide) 2 (by decide)

/-! ### Voting-power scaling (claim C6) -/

/-- C6: every elected candidate's output voting power is its raw voting
power divided by `10^10` with truncating natural division. -/
theorem elected_voting_power_scaling (validators : List ValidatorElectionInfo)
    (max_elected : Nat) (out : ElectedValidators)
    (h : get_top_validators_by_voting_power validators max_elected = some out) :
    out.voting_powers =
      (topKSelected validators max_elected).map
        (fun v => v.voting_power / 10 ^ 10) := by
  obtain ⟨-, hsp, -, -, -⟩ := get_top_inv h
  exact scaledPowers_eq _ _ hsp

/-- C6 witness: a raw voting power of `10^10 + 9` scales to exactly 1
(truncating division), not 2. -/
theorem elected_voting_power_scaling_witness :
    (⟨[("0xaaaaaaaaaaaaaaaaaaaaaaaaaaaaaaaaaaaaaaaa")], [1],
        [("0xbbbbbbbbbbbbbbbbbbbbbbbbbbbbbbbbbbbbbbbb")],
        [[9]]⟩ : ElectedValidators).voting_powers =
      (topKSelected
          [⟨"0xaaaaaaaaaaaaaaaaaaaaaaaaaaaaaaaaaaaaaaaa", 10000000009,
              "0xbbbbbbbbbbbbbbbbbbbbbbbbbbbbbbbbbbbbbbbb", [9]⟩] 5).map
        (fun v => v.voting_power / 10 ^ 10) ∧
    (10000000009 : Nat) / 10 ^ 10 = 1 :=
  ⟨elected_voting_power_scaling
      [⟨"0xaaaaaaaaaaaaaaaaaaaaaaaaaaaaaaaaaaaaaaaa", 10000000009,
          "0xbbbbbbbbbbbbbbbbbbbbbbbbbbbbbbbbbbbbbbbb", [9]⟩] 5
      ⟨[("0xaaaaaaaaaaaaaaaaaaaaaaaaaaaaaaaaaaaaaaaa")], [1],
        [("0xbbbbbbbbbbbbbbbbbbbbbbbbbbbbbbbbbbbbbbbb")], [[9]]⟩
      (by decide), by decide⟩

/-! ### Zero-power exclusion (claim C7) -/

/-- C7: a candidate whose raw voting power is zero is never among the
selected validators (whose field projections form the four output
sequences), for every candidate list and max-electable count. -/
theorem zero_power_never_selected (validators : List ValidatorElectionInfo)
    (max_elected : Nat) (v : ValidatorElectionInfo) (hv : v ∈ validators)
    (hz : v.voting_power = 0) :
    v ∉ topKSelected validators max_elected := by
  intro hmem
  simp only [topKSelected] at hmem
  have h1 := List.take_subset _ _ hmem
  have h2 :=
    (List.perm_insertionSort heapGe (positiveValidators validators)).subset h1
  simp only [positiveValidators] at h2
  have h3 := (List.mem_filter.mp h2).2
  rw [hz] at h3
  simp at h3

/-- C7 witness: a zero-power candidate in a two-candidate list is not
selected even when the max-electable count exceeds the candidate
count. -/
theorem zero_power_never_selected_witness :
    (⟨"0x5555555555555555555555555555555555555555", 0,
        "0x3000000000000000000000000000000000000002", [6]⟩ :
      ValidatorElectionInfo) ∉
      topKSelected
        [⟨"0x6666666666666666666666666666666666666666", 40000000000,
            "0x3000000000000000000000000000000000000001", [5]⟩,
          ⟨"0x5555555555555555555555555555555555555555", 0,
            "0x3000000000000000000000000000000000000002", [6]⟩] 9 :=
  zero_power_never_selected
    [⟨"0x6666666666666666666666666666666666666666", 40000000000,
        "0x3000000000000000000000000000000000000001", [5]⟩,
      ⟨"0x5555555555555555555555555555555555555555", 0,
        "0x3000000000000000000000000000000000000002", [6]⟩] 9
    ⟨"0x5555555555555555555555555555555555555555", 0,
      "0x3000000000000000000000000000000000000002", [6]⟩
    (by decide) (by decide)

/-! ### Output shape of the selection (claim C8) -/

/-- C8: each of the four output sequences has length
`min max_elected (number of positive-power candidates)`; the selected
sequence is non-increasing in the heap order; and when the max-electable
count is at least the number of positive-power candidates the selection
is exactly a permutation of all positive-power candidates — no padding,
no duplication. -/
theorem selection_output_shape (validators : List ValidatorElectionInfo)
    (max_elected : Nat) (out : ElectedValidators)
    (h : get_top_validators_by_voting_power validators max_elected = some out) :
    (out.consensus_addrs.length =
        min max_elected (positiveValidators validators).length ∧
      out.voting_powers.length =
        min max_elected (positiveValidators validators).length ∧
      out.operator_addrs.length =
        min max_elected (positiveValidators validators).length ∧
      out.tendermint_pub_keys.length =
        min max_elected (positiveValidators validators).length) ∧
    List.Pairwise heapGe (topKSelected validators max_elected) ∧
    ((positiveValidators validators).length ≤ max_elected →
      (topKSelected validators max_elected).Perm
        (positiveValidators validators)) := by
  obtain ⟨h64, hsp, hca, hoa, hpk⟩ := get_top_inv h
  have hlen := topKSelected_length validators max_elected
  refine ⟨⟨?_, ?_, ?_, ?_⟩, ?_, ?_⟩
  · rw [hca, List.length_map]
    exact hlen
  · rw [scaledPowers_eq _ _ hsp, List.length_map]
    exact hlen
  · rw [hoa, List.length_map]
    exact hlen
  · rw [hpk, List.length_map]
    exact hlen
  · simp only [topKSelected]
    exact
      List.Pairwise.sublist (List.take_sublist _ _)
        (List.sorted_insertionSort heapGe _)
  · intro hle
    simp only [topKSelected]
    have hmin :
        min max_elected
            ((positiveValidators validators).insertionSort heapGe).length =
          ((positiveValidators validators).insertionSort heapGe).length := by
      rw [List.length_insertionSort]
      omega
    rw [hmin, List.take_length]
    exact List.perm_insertionSort heapGe _

/-- C8 witness: one positive-power and one zero-power candidate with a
max-electable count of 5: the output has length `min 5 1 = 1` and the
selection is sorted. -/
theorem selection_output_shape_witness :
    List.Pairwise heapGe
      (topKSelected
        [⟨"0x7777777777777777777777777777777777777777", 30000000000,
            "0x4000000000000000000000000000000000000001", [1]⟩,
          ⟨"0x8888888888888888888888888888888888888888", 0,
            "0x4000000000000000000000000000000000000002", [2]⟩] 5) ∧
    (⟨[("0x7777777777777777777777777777777777777777")], [3],
        [("0x4000000000000000000000000000000000000001")],
        [[1]]⟩ : ElectedValidators).consensus_addrs.length =
      min 5
        (positiveValidators
          [⟨"0x7777777777777777777777777777777777777777", 30000000000,
              "0x4000000000000000000000000000000000000001", [1]⟩,
            ⟨"0x8888888888888888888888888888888888888888", 0,
              "0x4000000000000000000000000000000000000002", [2]⟩]).length :=
  ⟨(selection_output_shape
      [⟨"0x7777777777777777777777777777777777777777", 30000000000,
          "0x4000000000000000000000000000000000000001", [1]⟩,
        ⟨"0x8888888888888888888888888888888888888888", 0,
          "0x4000000000000000000000000000000000000002", [2]⟩] 5
      ⟨[("0x7777777777777777777777777777777777777777")], [3],
        [("0x4000000000000000000000000000000000000001")], [[1]]⟩
      (by decide)).2.1,
    (selection_output_shape
      [⟨"0x7777777777777777777777777777777777777777", 30000000000,
          "0x4000000000000000000000000000000000000001", [1]⟩,
        ⟨"0x8888888888888888888888888888888888888888", 0,
          "0x4000000000000000000000000000000000000002", [2]⟩] 5
      ⟨[("0x7777777777777777777777777777777777777777")], [3],
        [("0x4000000000000000000000000000000000000001")], [[1]]⟩
      (by decide)).1.1⟩
